import Mathlib

set_option autoImplicit false

namespace JobHub

/-!
Shallow embedding of the Job Hub email-processing data model and operations.

Sources embedded here:
- `DATABASE_SCHEMA.sql`: tables `job_applications`, `application_events`,
  `emails`, the enum types `application_status` / `application_event_type`,
  the `update_job_application_timestamp` BEFORE UPDATE trigger and the
  `update_job_application_on_email_insert` AFTER INSERT trigger.
- `apps/web/src/services/supabase.ts`: the frontend CRUD wrappers
  (`updateApplication`, `deleteApplication`, `getApplicationsByUserId`,
  `createApplication`, `createEvent`, `markEmailAsParsed`).
- `apps/web/src/types/application.ts`: the frontend string-literal enum types.
- `apps/backend/app/services/ai/prompts/email_analysis.txt`: the classifier
  prompt enum lists.
- `apps/backend/PROCESS_EMAIL_IMPLEMENTATION.md` together with spec sections
  4.1-4.4: the backend workflow (`process_email`, `findMatch`,
  `updateApplicationFromEvent`), whose Python sources are not present in the
  repository snapshot; those definitions are modelled from the spec and are
  marked as such.

Timestamps and row identifiers are modelled as `Nat`; SQL NULL is `Option`.
-/

/-- The `application_status` enum from DATABASE_SCHEMA.sql (7 values). -/
def applicationStatusValues : List String :=
  ["APPLIED", "ASSESSMENT", "INTERVIEW", "REJECTED", "OFFERED", "ACCEPTED", "WITHDRAWN"]

/-- The `application_event_type` enum from DATABASE_SCHEMA.sql (14 values). -/
def applicationEventTypeValues : List String :=
  ["APPLICATION_SUBMITTED", "APPLICATION_RECEIVED", "APPLICATION_VIEWED",
   "APPLICATION_REVIEWED", "ASSESSMENT_RECEIVED", "ASSESSMENT_COMPLETED",
   "INTERVIEW_SCHEDULED", "INTERVIEW_COMPLETED", "REFERENCE_REQUESTED",
   "OFFER_RECEIVED", "OFFER_ACCEPTED", "OFFER_DECLINED",
   "APPLICATION_REJECTED", "APPLICATION_WITHDRAWN"]

/-- The STATUS list of the classifier prompt `email_analysis.txt`. -/
def promptStatusValues : List String :=
  ["APPLIED", "ASSESSMENT", "INTERVIEW", "REJECTED", "OFFERED", "ACCEPTED", "WITHDRAWN"]

/-- The EVENT_TYPE list of the classifier prompt `email_analysis.txt`. -/
def promptEventTypeValues : List String :=
  ["APPLICATION_SUBMITTED", "APPLICATION_VIEWED", "APPLICATION_REVIEWED",
   "ASSESSMENT_RECEIVED", "ASSESSMENT_COMPLETED", "INTERVIEW_SCHEDULED",
   "INTERVIEW_COMPLETED", "REFERENCE_REQUESTED", "OFFER_RECEIVED",
   "OFFER_ACCEPTED", "OFFER_DECLINED", "APPLICATION_REJECTED",
   "APPLICATION_WITHDRAWN"]

/-- The `ApplicationStatus` union type from `apps/web/src/types/application.ts`. -/
def frontendApplicationStatusValues : List String :=
  ["APPLIED", "ASSESSMENT", "INTERVIEW", "REJECTED", "OFFERED", "ACCEPTED", "WITHDRAWN"]

/-- The `ApplicationEventType` union type from `apps/web/src/types/application.ts`. -/
def frontendApplicationEventTypeValues : List String :=
  ["APPLICATION_SUBMITTED", "APPLICATION_VIEWED", "APPLICATION_REVIEWED",
   "ASSESSMENT_RECEIVED", "ASSESSMENT_COMPLETED", "INTERVIEW_SCHEDULED",
   "INTERVIEW_COMPLETED", "REFERENCE_REQUESTED", "OFFER_RECEIVED",
   "OFFER_ACCEPTED", "OFFER_DECLINED", "APPLICATION_REJECTED",
   "APPLICATION_WITHDRAWN"]

/-- A row of the `job_applications` table (DATABASE_SCHEMA.sql).
NOT NULL columns are plain values, nullable columns are `Option`.
`last_updated_at` has no default and is NULL initially. -/
structure JobApplicationRow where
  applicationId : Nat
  userId : String
  company : String
  role : String
  status : String
  jobPostingUrl : Option String := none
  location : Option String := none
  salaryRange : Option String := none
  notes : Option String := none
  appliedDate : Option Nat := none
  createdAt : Nat := 0
  lastUpdatedAt : Option Nat := none
  lastEmailReceivedAt : Option Nat := none
  deriving Repr, DecidableEq

/-- A row of the `application_events` table (DATABASE_SCHEMA.sql). -/
structure ApplicationEventRow where
  eventId : Nat
  applicationId : Nat
  userId : String
  eventType : String
  eventDate : Nat
  description : Option String := none
  location : Option String := none
  contactPerson : Option String := none
  notes : Option String := none
  emailId : Option Nat := none
  createdAt : Nat := 0
  deriving Repr, DecidableEq

/-- A row of the `emails` table (DATABASE_SCHEMA.sql). The classifier
confidence is opaque to every claim and is modelled as an abstract `Nat`. -/
structure EmailRow where
  emailId : Nat
  userId : String
  applicationId : Option Nat := none
  externalEmailId : String
  sender : String
  recipient : String
  subject : String
  bodyText : Option String := none
  bodyHtml : Option String := none
  receivedAt : Nat
  parsedAt : Option Nat := none
  confidenceScore : Option Nat := none
  createdAt : Nat := 0
  deriving Repr, DecidableEq

/-- The relational store: the three tables of DATABASE_SCHEMA.sql plus a
clock (the value the SQL function now() returns during an operation) and a
fresh-id counter standing for uuid_generate_v4. -/
structure DBState where
  applications : List JobApplicationRow := []
  events : List ApplicationEventRow := []
  emails : List EmailRow := []
  clock : Nat := 0
  nextId : Nat := 0
  deriving Repr, DecidableEq

/-- The row-level constraints DATABASE_SCHEMA.sql declares on the `emails`
table: PRIMARY KEY on `email_id` and the foreign key
`application_id REFERENCES job_applications ON DELETE SET NULL`.
The NOT NULL constraints are enforced by the types of `EmailRow`.
The schema declares no other constraint on the table: in particular it has
no UNIQUE constraint on `(user_id, external_email_id)` (the three indexes it
creates are non-unique). -/
def emailsTableOk (apps : List JobApplicationRow) (emails : List EmailRow) : Prop :=
  (emails.map (fun e => e.emailId)).Nodup ∧
  ∀ e ∈ emails, e.applicationId = none ∨
    ∃ a ∈ apps, e.applicationId = some a.applicationId

instance (apps : List JobApplicationRow) (emails : List EmailRow) :
    Decidable (emailsTableOk apps emails) := by
  unfold emailsTableOk; infer_instance

/-- Two concrete email rows with the same owner and the same
external_email_id, as the dedup-key claim forbids. -/
def dupEmailA : EmailRow :=
  { emailId := 1, userId := "u1", externalEmailId := "abc",
    sender := "hr@acme.example", recipient := "me@example.com",
    subject := "Application received", receivedAt := 100 }

/-- A second row carrying the same (user_id, external_email_id) pair as
`dupEmailA` but a distinct primary key. -/
def dupEmailB : EmailRow :=
  { emailId := 2, userId := "u1", externalEmailId := "abc",
    sender := "hr@acme.example", recipient := "me@example.com",
    subject := "Application received", receivedAt := 200 }

/-- C1: the claim states the store enforces a uniqueness constraint on
(user_id, external_email_id). DATABASE_SCHEMA.sql declares no such
constraint: a table containing two distinct rows with the same
(user_id, external_email_id) satisfies every constraint the schema places on
the `emails` table, so a second insert of the same external id for the same
user does create a second row. -/
theorem emails_schema_admits_duplicate_dedup_key :
    emailsTableOk [] [dupEmailA, dupEmailB] ∧
    dupEmailA.userId = dupEmailB.userId ∧
    dupEmailA.externalEmailId = dupEmailB.externalEmailId ∧
    dupEmailA.emailId ≠ dupEmailB.emailId := by
  decide

/-- C4 counterexample: the database enum `application_event_type` contains
APPLICATION_RECEIVED, but neither the classifier prompt EVENT_TYPE list nor
the frontend ApplicationEventType union does, so the three lists do not all
accept the same values, and the prompt and frontend lists have 13 values,
not 14. -/
theorem event_type_lists_disagree :
    "APPLICATION_RECEIVED" ∈ applicationEventTypeValues ∧
    "APPLICATION_RECEIVED" ∉ promptEventTypeValues ∧
    "APPLICATION_RECEIVED" ∉ frontendApplicationEventTypeValues ∧
    applicationEventTypeValues.length = 14 ∧
    promptEventTypeValues.length = 13 ∧
    frontendApplicationEventTypeValues.length = 13 := by
  decide

/-- C4 as amended: the status enum is a closed set of 7 values agreed on by
the database schema, the classifier prompt, and the frontend type; the
database event-type enum is a closed set of 14 values, while the classifier
prompt and the frontend type share the identical 13-value subset obtained by
removing APPLICATION_RECEIVED from the database enum. -/
theorem enum_lists_agreement :
    applicationStatusValues.length = 7 ∧
    promptStatusValues = applicationStatusValues ∧
    frontendApplicationStatusValues = applicationStatusValues ∧
    applicationEventTypeValues.length = 14 ∧
    promptEventTypeValues = frontendApplicationEventTypeValues ∧
    promptEventTypeValues.length = 13 ∧
    promptEventTypeValues = applicationEventTypeValues.erase "APPLICATION_RECEIVED" := by
  decide

/-- The updatable columns a `Partial<JobApplication>` payload can carry in
`jobApplicationsService.updateApplication` (supabase.ts). A field of `some v`
is present in the payload and rewritten to `v`; `none` means absent. -/
structure ApplicationUpdates where
  company : Option String := none
  role : Option String := none
  status : Option String := none
  jobPostingUrl : Option String := none
  location : Option String := none
  salaryRange : Option String := none
  notes : Option String := none
  lastEmailReceivedAt : Option Nat := none
  deriving Repr, DecidableEq

/-- Overwrite exactly the supplied fields of a row, as the SQL UPDATE built by
supabase `.update(updates)` does: every supplied field is written whether or
not it differs from the stored value. -/
def applyUpdates (u : ApplicationUpdates) (r : JobApplicationRow) : JobApplicationRow :=
  { r with
    company := match u.company with | some v => v | none => r.company
    role := match u.role with | some v => v | none => r.role
    status := match u.status with | some v => v | none => r.status
    jobPostingUrl := match u.jobPostingUrl with | some v => some v | none => r.jobPostingUrl
    location := match u.location with | some v => some v | none => r.location
    salaryRange := match u.salaryRange with | some v => some v | none => r.salaryRange
    notes := match u.notes with | some v => some v | none => r.notes
    lastEmailReceivedAt := match u.lastEmailReceivedAt with
      | some v => some v
      | none => r.lastEmailReceivedAt }

/-- `jobApplicationsService.updateApplication` from supabase.ts: an UPDATE on
`job_applications` filtered by id and by the authenticated user id, composed
with the `update_job_application_timestamp` BEFORE UPDATE trigger from
DATABASE_SCHEMA.sql, which sets `last_updated_at = now()` on every row an
UPDATE statement touches, whether or not any value differs. -/
def updateApplication (id : Nat) (userId : String) (u : ApplicationUpdates)
    (s : DBState) : DBState :=
  { s with applications := s.applications.map (fun r =>
      if r.applicationId = id ∧ r.userId = userId then
        { applyUpdates u r with lastUpdatedAt := some s.clock }
      else r) }

/-- Insert into the `emails` table, composed with the
`update_job_application_on_email_insert` AFTER INSERT trigger from
DATABASE_SCHEMA.sql: when the new email carries a non-null application_id,
that application gets `last_email_received_at = NEW.received_at` and
`last_updated_at = now()`. -/
def insertEmail (e : EmailRow) (s : DBState) : DBState :=
  let s1 := { s with emails := s.emails ++ [e] }
  match e.applicationId with
  | none => s1
  | some a =>
    { s1 with applications := s1.applications.map (fun r =>
        if r.applicationId = a then
          { r with lastEmailReceivedAt := some e.receivedAt,
                   lastUpdatedAt := some s.clock }
        else r) }

/-- `emailsService.markEmailAsParsed` from supabase.ts: an UPDATE on the
`emails` table setting the application link, parse timestamp and confidence.
DATABASE_SCHEMA.sql installs no trigger on UPDATE of `emails`, so the
applications table is untouched. -/
def markEmailAsParsed (id : Nat) (appId : Option Nat) (conf : Option Nat)
    (s : DBState) : DBState :=
  { s with emails := s.emails.map (fun e =>
      if e.emailId = id then
        { e with applicationId := appId, parsedAt := some s.clock,
                 confidenceScore := conf }
      else e) }

/-- `jobApplicationsService.deleteApplication` from supabase.ts: a DELETE on
`job_applications` filtered by id and authenticated user id, composed with
the referential actions DATABASE_SCHEMA.sql declares:
`application_events.application_id ... ON DELETE CASCADE` and
`emails.application_id ... ON DELETE SET NULL`. -/
def deleteApplication (id : Nat) (userId : String) (s : DBState) : DBState :=
  let isRemoved : JobApplicationRow → Bool := fun r =>
    decide (r.applicationId = id ∧ r.userId = userId)
  let removedIds : List Nat :=
    (s.applications.filter isRemoved).map (fun r => r.applicationId)
  { s with
    applications := s.applications.filter (fun r => !isRemoved r)
    events := s.events.filter (fun ev => !decide (ev.applicationId ∈ removedIds))
    emails := s.emails.map (fun e =>
      match e.applicationId with
      | some a => if a ∈ removedIds then { e with applicationId := none } else e
      | none => e) }

/-- Errors the store surfaces on a rejected write. -/
inductive DBError where
  | invalidEnum (value : String)
  | notNullViolation (column : String)
  | foreignKeyViolation (column : String)
  deriving Repr, DecidableEq

/-- `applicationEventsService.createEvent` from supabase.ts: an INSERT into
`application_events`. The store checks the `application_event_type` enum on
input (an unrecognized value is rejected before anything is written, never
coerced) and the NOT NULL foreign key to `job_applications`. -/
def createEvent (ev : ApplicationEventRow) (s : DBState) : Except DBError DBState :=
  if ev.eventType ∉ applicationEventTypeValues then
    .error (.invalidEnum ev.eventType)
  else if ∀ a ∈ s.applications, a.applicationId ≠ ev.applicationId then
    .error (.foreignKeyViolation "application_id")
  else
    .ok { s with events := s.events ++ [ev] }

/-- The insert payload of `jobApplicationsService.createApplication`
(supabase.ts). `company`, `role` and `status` are NOT NULL columns but the
payload itself may carry null, modelled as `none`. -/
structure NewApplicationInput where
  userId : String
  company : Option String
  role : Option String
  status : Option String
  jobPostingUrl : Option String := none
  location : Option String := none
  salaryRange : Option String := none
  notes : Option String := none
  appliedDate : Option Nat := none
  deriving Repr, DecidableEq

/-- `jobApplicationsService.createApplication` from supabase.ts: inserts the
payload with the authenticated user id. The function itself performs no
validation; the store enforces only the constraints DATABASE_SCHEMA.sql
declares, namely NOT NULL on `company`, `role`, `status` and the
`application_status` enum on `status`. Nothing rejects an empty string.
`last_updated_at` stays NULL: the timestamp trigger fires only on UPDATE. -/
def createApplication (input : NewApplicationInput) (s : DBState) :
    Except DBError (Nat × DBState) :=
  match input.company, input.role, input.status with
  | none, _, _ => .error (.notNullViolation "company")
  | some _, none, _ => .error (.notNullViolation "role")
  | some _, some _, none => .error (.notNullViolation "status")
  | some c, some r, some st =>
    if st ∉ applicationStatusValues then
      .error (.invalidEnum st)
    else
      .ok (s.nextId,
        { s with
          applications := s.applications ++
            [{ applicationId := s.nextId, userId := input.userId,
               company := c, role := r, status := st,
               jobPostingUrl := input.jobPostingUrl,
               location := input.location,
               salaryRange := input.salaryRange, notes := input.notes,
               appliedDate := input.appliedDate, createdAt := s.clock,
               lastUpdatedAt := none, lastEmailReceivedAt := none }]
          nextId := s.nextId + 1 })

/-- The user-id filter of `jobApplicationsService.getApplicationsByUserId`
(supabase.ts): the query is built with
`.eq("user_id", userId === currentUserId ? userId : currentUserId)`. -/
def effectiveUserId (requested current : String) : String :=
  if requested = current then requested else current

/-- `jobApplicationsService.getApplicationsByUserId` from supabase.ts: a
SELECT on `job_applications` filtered by `effectiveUserId`. The result
ordering by created_at is omitted; it does not affect which rows return. -/
def getApplicationsByUserId (requested current : String) (s : DBState) :
    List JobApplicationRow :=
  s.applications.filter (fun r => decide (r.userId = effectiveUserId requested current))

/-- Classifier intent (GLOSSARY and email_analysis.txt INTENT list). -/
inductive Intent where
  | newApplication
  | applicationEvent
  | general
  deriving Repr, DecidableEq

/-- The structured result of the email classifier (spec section 4.2 step 3,
matching the JSON schema of email_analysis.txt). -/
structure ParsedEmail where
  intent : Intent
  applicationId : Option Nat := none
  company : Option String := none
  role : Option String := none
  status : Option String := none
  eventType : Option String := none
  eventDescription : Option String := none
  eventDate : Option Nat := none
  location : Option String := none
  salaryRange : Option String := none
  notes : Option String := none
  confidenceScore : Option Nat := none
  deriving Repr, DecidableEq

/-- An inbound raw email as `processEmail` receives it (spec section 4.2). -/
structure RawEmail where
  externalEmailId : String
  sender : String
  recipient : String
  subject : String
  bodyText : Option String := none
  bodyHtml : Option String := none
  receivedAt : Nat
  deriving Repr, DecidableEq

/-- Strip leading and trailing whitespace from a string, working directly on
the character list (the semantics of String.trim / Python strip). -/
def trimStr (x : String) : String :=
  ⟨((x.data.dropWhile Char.isWhitespace).reverse.dropWhile Char.isWhitespace).reverse⟩

/-- ASCII-lowercase every character (the semantics of String.toLower /
Python lower on the ASCII range). -/
def toLowerStr (x : String) : String :=
  ⟨x.data.map Char.toLower⟩

/-- Normalization used by the case-insensitive matching step (spec section
4.3 step 3: trim and lowercase both sides). -/
def normalize (x : String) : String := toLowerStr (trimStr x)

/-- A row is the live application that parsed.application_id identifies for
this user (spec section 4.3 step 1). -/
def matchesParsedId (userId : String) (p : ParsedEmail) (r : JobApplicationRow) : Prop :=
  p.applicationId = some r.applicationId ∧ r.userId = userId

instance (userId : String) (p : ParsedEmail) (r : JobApplicationRow) :
    Decidable (matchesParsedId userId p r) := by
  unfold matchesParsedId; infer_instance

/-- Exact case-sensitive match on (company, role) among the applications of
the user (spec section 4.3 step 2). -/
def exactMatch (userId : String) (p : ParsedEmail) (r : JobApplicationRow) : Prop :=
  r.userId = userId ∧ p.company = some r.company ∧ p.role = some r.role

instance (userId : String) (p : ParsedEmail) (r : JobApplicationRow) :
    Decidable (exactMatch userId p r) := by
  unfold exactMatch; infer_instance

/-- Case-insensitive match on (company, role), both sides trimmed and
lowercased (spec section 4.3 step 3). -/
def ciMatch (userId : String) (p : ParsedEmail) (r : JobApplicationRow) : Prop :=
  r.userId = userId ∧ p.company.map normalize = some (normalize r.company) ∧
  p.role.map normalize = some (normalize r.role)

instance (userId : String) (p : ParsedEmail) (r : JobApplicationRow) :
    Decidable (ciMatch userId p r) := by
  unfold ciMatch; infer_instance

/-- Strategy 1: the application identified by parsed.application_id, when
present and owned by the user. -/
def findByParsedId (userId : String) (p : ParsedEmail) (s : DBState) :
    Option JobApplicationRow :=
  match p.applicationId with
  | none => none
  | some aid => s.applications.find? (fun r =>
      decide (r.applicationId = aid ∧ r.userId = userId))

/-- Strategy 2: first exact case-sensitive (company, role) match. -/
def findExact (userId : String) (p : ParsedEmail) (s : DBState) :
    Option JobApplicationRow :=
  s.applications.find? (fun r => decide (exactMatch userId p r))

/-- Strategy 3: first case-insensitive (company, role) match. -/
def findCaseInsensitive (userId : String) (p : ParsedEmail) (s : DBState) :
    Option JobApplicationRow :=
  s.applications.find? (fun r => decide (ciMatch userId p r))

/-- Modelled from the spec: `findMatch` of the backend application matcher
(`application_matcher.py` is absent from the sources; only
PROCESS_EMAIL_IMPLEMENTATION.md and spec section 4.3 describe it).
Priority order, first hit wins: the live application identified by
`parsed.application_id` when owned by the user; else an exact case-sensitive
match on (company, role) among the applications of the user; else a
case-insensitive match with both sides trimmed and lowercased; else none. -/
def findMatch (userId : String) (p : ParsedEmail) (s : DBState) :
    Option JobApplicationRow :=
  match findByParsedId userId p s with
  | some r => some r
  | none =>
    match findExact userId p s with
    | some r => some r
    | none => findCaseInsensitive userId p s

/-- Modelled from the spec: the changed-field computation of
`updateApplicationFromEvent` (spec section 4.4): the fields among status,
location, salary_range, notes for which parsed supplies a non-null value
differing from the stored one. -/
def changedFields (p : ParsedEmail) (r : JobApplicationRow) : List String :=
  (match p.status with
   | some v => if v ≠ r.status then ["status"] else []
   | none => []) ++
  (match p.location with
   | some v => if some v ≠ r.location then ["location"] else []
   | none => []) ++
  (match p.salaryRange with
   | some v => if some v ≠ r.salaryRange then ["salary_range"] else []
   | none => []) ++
  (match p.notes with
   | some v => if some v ≠ r.notes then ["notes"] else []
   | none => [])

/-- Write the parsed non-null values of the four updatable fields into a row;
all other columns are untouched. -/
def applyParsedFields (p : ParsedEmail) (r : JobApplicationRow) : JobApplicationRow :=
  { r with
    status := match p.status with | some v => v | none => r.status
    location := match p.location with | some v => some v | none => r.location
    salaryRange := match p.salaryRange with | some v => some v | none => r.salaryRange
    notes := match p.notes with | some v => some v | none => r.notes }

/-- Modelled from the spec: `updateApplicationFromEvent` of the backend
mutator (`db_operations.py` is absent from the sources; spec section 4.4).
It updates only the fields for which parsed supplies a non-null differing
value; when the changed-field set is empty no UPDATE is issued, so the
timestamp trigger does not fire and `last_updated_at` is untouched; when it
is non-empty, `last_updated_at` and `last_email_received_at` are updated
once overall. Returns the set of fields actually changed. -/
def updateApplicationFromEvent (appId : Nat) (p : ParsedEmail)
    (emailReceivedAt : Nat) (s : DBState) : List String × DBState :=
  match s.applications.find? (fun r => decide (r.applicationId = appId)) with
  | none => ([], s)
  | some r =>
    let cs := changedFields p r
    if cs = [] then ([], s)
    else
      (cs, { s with applications := s.applications.map (fun q =>
          if q.applicationId = appId then
            { applyParsedFields p q with
              lastUpdatedAt := some s.clock,
              lastEmailReceivedAt := some emailReceivedAt }
          else q) })

/-- The Deduplication Gate (spec section 4.1): a read-only lookup of Email
rows scoped to the user and the external id. -/
def isDuplicate (userId xid : String) (s : DBState) : Bool :=
  s.emails.any (fun e => decide (e.userId = userId ∧ e.externalEmailId = xid))

/-- Step 4 of the NEW_APPLICATION / APPLICATION_EVENT branches links the
already-persisted Email row to an application: an UPDATE of the
`emails.application_id` column (no trigger fires on UPDATE of emails). -/
def linkEmail (emailId appId : Nat) (s : DBState) : DBState :=
  { s with emails := s.emails.map (fun e =>
      if e.emailId = emailId then { e with applicationId := some appId } else e) }

/-- Step 5 of the orchestration: update the parse metadata of the Email row
after classification, regardless of branch. -/
def setParsedMeta (emailId : Nat) (conf : Option Nat) (s : DBState) : DBState :=
  { s with emails := s.emails.map (fun e =>
      if e.emailId = emailId then
        { e with parsedAt := some s.clock, confidenceScore := conf }
      else e) }

/-- Modelled from the spec: the create path of the backend mutator
(`handle_new_application` in db_operations.py is absent from the sources;
spec section 4.4): fails with a validation error when company or role is
empty or null; otherwise inserts an Application with status defaulted to
APPLIED, applied_date and last_email_received_at from the received
timestamp of the email, and last_updated_at stamped now. -/
def createApplicationFromParsed (userId : String) (p : ParsedEmail)
    (receivedAt : Nat) (s : DBState) : Except DBError (Nat × DBState) :=
  match p.company, p.role with
  | none, _ => .error (.notNullViolation "company")
  | some _, none => .error (.notNullViolation "role")
  | some c, some r =>
    if c = "" then .error (.notNullViolation "company")
    else if r = "" then .error (.notNullViolation "role")
    else
      .ok (s.nextId,
        { s with
          applications := s.applications ++
            [{ applicationId := s.nextId, userId := userId,
               company := c, role := r,
               status := match p.status with | some st => st | none => "APPLIED",
               jobPostingUrl := none, location := p.location,
               salaryRange := p.salaryRange, notes := p.notes,
               appliedDate := some receivedAt, createdAt := s.clock,
               lastUpdatedAt := some s.clock,
               lastEmailReceivedAt := some receivedAt }]
          nextId := s.nextId + 1 })

/-- The raw Email row persisted unconditionally in step 2 of the
orchestration, before classification: unlinked, unparsed, no confidence. -/
def emailRowOf (userId : String) (raw : RawEmail) (s : DBState) : EmailRow :=
  { emailId := s.nextId, userId := userId, applicationId := none,
    externalEmailId := raw.externalEmailId, sender := raw.sender,
    recipient := raw.recipient, subject := raw.subject,
    bodyText := raw.bodyText, bodyHtml := raw.bodyHtml,
    receivedAt := raw.receivedAt, parsedAt := none,
    confidenceScore := none, createdAt := s.clock }

/-- The typed outcome of the orchestration (spec section 4.2). -/
inductive Outcome where
  | duplicate
  | newApplication (applicationId emailId : Nat)
  | applicationUpdated (applicationId emailId : Nat)
  | noMatch (emailId : Nat)
  | general (emailId : Nat)
  | validationError (emailId : Nat)
  deriving Repr, DecidableEq

/-- Result of one workflow run. `classifierCalled` records whether the
orchestrator invoked the external classifier during the run. -/
structure ProcessResult where
  state : DBState
  outcome : Outcome
  classifierCalled : Bool
  deriving Repr, DecidableEq

/-- The ApplicationEvent row built from the parsed extraction for the
matched application (spec section 4.2 step 4, APPLICATION_EVENT branch). -/
def eventRowFromParsed (userId : String) (p : ParsedEmail) (emailId : Nat)
    (raw : RawEmail) (app : JobApplicationRow) (s : DBState) : ApplicationEventRow :=
  { eventId := s.nextId, applicationId := app.applicationId,
    userId := userId,
    eventType := match p.eventType with | some t => t | none => "",
    eventDate := match p.eventDate with | some d => d | none => raw.receivedAt,
    description := p.eventDescription, location := p.location,
    notes := p.notes, emailId := some emailId, createdAt := s.clock }

/-- The APPLICATION_EVENT branch: resolve the target application through the
matcher, append the event, apply the selective field update, and link the
email to the matched application. -/
def handleEventIntent (userId : String) (p : ParsedEmail) (emailId : Nat)
    (raw : RawEmail) (s : DBState) : DBState × Outcome :=
  match findMatch userId p s with
  | none => (s, .noMatch emailId)
  | some app =>
    match createEvent (eventRowFromParsed userId p emailId raw app s)
        { s with nextId := s.nextId + 1 } with
    | .error _ => (s, .validationError emailId)
    | .ok s2 =>
      (linkEmail emailId app.applicationId
        (updateApplicationFromEvent app.applicationId p raw.receivedAt s2).2,
       .applicationUpdated app.applicationId emailId)

/-- The intent branch of the orchestration (spec section 4.2 step 4). -/
def handleIntent (userId : String) (p : ParsedEmail) (emailId : Nat)
    (raw : RawEmail) (s : DBState) : DBState × Outcome :=
  match p.intent with
  | .general => (s, .general emailId)
  | .newApplication =>
    match createApplicationFromParsed userId p raw.receivedAt s with
    | .error _ => (s, .validationError emailId)
    | .ok (appId, s2) => (linkEmail emailId appId s2, .newApplication appId emailId)
  | .applicationEvent => handleEventIntent userId p emailId raw s

/-- Modelled from the spec: `process_email` of the backend orchestrator
(db_operations.py is absent from the sources; PROCESS_EMAIL_IMPLEMENTATION.md
and spec section 4.2). Strictly ordered steps: the Deduplication Gate first
(on duplicate, return immediately, write nothing, never call the
classifier); else persist the raw Email row unconditionally, invoke the
classifier, branch on intent, and update the parse metadata of the Email
row. The classifier is passed in as a function, keeping it external. -/
def processEmail (classify : RawEmail → ParsedEmail) (userId : String)
    (raw : RawEmail) (s : DBState) : ProcessResult :=
  if isDuplicate userId raw.externalEmailId s then
    ⟨s, .duplicate, false⟩
  else
    let emailId := s.nextId
    let s1 := insertEmail (emailRowOf userId raw s) { s with nextId := s.nextId + 1 }
    let p := classify raw
    let res := handleIntent userId p emailId raw s1
    ⟨setParsedMeta emailId p.confidenceScore res.1, res.2, true⟩

/-- Pointwise relation between a list and its image under a map. -/
theorem forall2_map_of_forall {α : Type} (R : α → α → Prop) (f : α → α) :
    ∀ l : List α, (∀ a ∈ l, R a (f a)) → List.Forall₂ R l (l.map f)
  | [], _ => List.Forall₂.nil
  | a :: t, h =>
    List.Forall₂.cons (h a (List.mem_cons_self a t))
      (forall2_map_of_forall R f t (fun b hb => h b (List.mem_cons_of_mem a hb)))

/-- Pointwise reflexivity gives Forall₂ of a list with itself. -/
theorem forall2_refl_of_forall {α : Type} (R : α → α → Prop) :
    ∀ l : List α, (∀ a ∈ l, R a a) → List.Forall₂ R l l
  | [], _ => List.Forall₂.nil
  | a :: t, h =>
    List.Forall₂.cons (h a (List.mem_cons_self a t))
      (forall2_refl_of_forall R t (fun b hb => h b (List.mem_cons_of_mem a hb)))

/-- C10: getApplicationsByUserId returns only rows owned by the
authenticated user: the query substitutes the authenticated user id whenever
the requested id differs, so every returned row belongs to the
authenticated user whatever id was requested. -/
theorem getApplicationsByUserId_only_own_rows (requested current : String) (s : DBState) :
    effectiveUserId requested current = current ∧
    ∀ r ∈ getApplicationsByUserId requested current s, r.userId = current := by
  have heff : effectiveUserId requested current = current := by
    unfold effectiveUserId
    split
    · assumption
    · rfl
  refine ⟨heff, ?_⟩
  intro r hr
  unfold getApplicationsByUserId at hr
  have hmem := List.mem_filter.1 hr
  have hu := of_decide_eq_true hmem.2
  rw [hu, heff]

/-- Concrete store for exercising C10: rows of two different users. -/
def twoUserState : DBState :=
  { applications :=
      [{ applicationId := 1, userId := "alice", company := "Acme",
         role := "Engineer", status := "APPLIED" },
       { applicationId := 2, userId := "bob", company := "Globex",
         role := "Analyst", status := "APPLIED" }] }

/-- C10 witness: asking for the rows of bob while authenticated as alice
returns only rows of alice. -/
theorem getApplicationsByUserId_only_own_rows_witness :
    effectiveUserId "bob" "alice" = "alice" ∧
    ∀ r ∈ getApplicationsByUserId "bob" "alice" twoUserState, r.userId = "alice" :=
  getApplicationsByUserId_only_own_rows "bob" "alice" twoUserState

/-- An insert payload whose company is the empty string (and not null). -/
def emptyCompanyInput : NewApplicationInput :=
  { userId := "u1", company := some "", role := some "Engineer",
    status := some "APPLIED" }

/-- C9 counterexample: createApplication accepts an empty (non-null) company
string: the insert succeeds and a row is written, because supabase.ts does
no validation and DATABASE_SCHEMA.sql has only NOT NULL constraints, which
an empty string satisfies. -/
theorem createApplication_accepts_empty_company :
    emptyCompanyInput.company = some "" ∧
    (createApplication emptyCompanyInput {}).toOption.map
      (fun pr => pr.2.applications.length) = some 1 := by
  decide

/-- C9 as amended: createApplication fails and inserts no row when company
or role is null (a NOT NULL violation from the store); an empty string is
not rejected. -/
theorem createApplication_rejects_null_company_or_role
    (input : NewApplicationInput) (s : DBState)
    (h : input.company = none ∨ input.role = none) :
    (createApplication input s = .error (.notNullViolation "company") ∨
     createApplication input s = .error (.notNullViolation "role")) ∧
    ∀ pr, createApplication input s ≠ .ok pr := by
  have herr : createApplication input s = .error (.notNullViolation "company") ∨
      createApplication input s = .error (.notNullViolation "role") := by
    rcases h with h | h
    · left
      simp [createApplication, h]
    · cases hc : input.company with
      | none => left; simp [createApplication, hc]
      | some c => right; simp [createApplication, hc, h]
  refine ⟨herr, ?_⟩
  intro pr hok
  rcases herr with herr | herr <;> rw [herr] at hok <;> exact Except.noConfusion hok

/-- An insert payload with a null role. -/
def nullRoleInput : NewApplicationInput :=
  { userId := "u1", company := some "Acme", role := none, status := some "APPLIED" }

/-- C9 witness: a null role is rejected and no row is inserted. -/
theorem createApplication_rejects_null_company_or_role_witness :
    (createApplication nullRoleInput {} = .error (.notNullViolation "company") ∨
     createApplication nullRoleInput {} = .error (.notNullViolation "role")) ∧
    ∀ pr, createApplication nullRoleInput {} ≠ .ok pr :=
  createApplication_rejects_null_company_or_role nullRoleInput {} (Or.inr rfl)

/-- C8: an event row whose event_type is not one of the recognized
application_event_type values is rejected with an unrecognized-enum error
carrying the offending value, and no state is ever produced, so no row is
written and no default is substituted. -/
theorem createEvent_rejects_unrecognized_event_type
    (ev : ApplicationEventRow) (s : DBState)
    (h : ev.eventType ∉ applicationEventTypeValues) :
    createEvent ev s = .error (.invalidEnum ev.eventType) ∧
    ∀ s2, createEvent ev s ≠ .ok s2 := by
  have h1 : createEvent ev s = .error (.invalidEnum ev.eventType) := by
    unfold createEvent
    rw [if_pos h]
  refine ⟨h1, ?_⟩
  intro s2 hok
  rw [h1] at hok
  exact Except.noConfusion hok

/-- An event row carrying an event_type outside the enum. -/
def badEventRow : ApplicationEventRow :=
  { eventId := 9, applicationId := 1, userId := "u1",
    eventType := "PHONE_SCREEN", eventDate := 50 }

/-- C8 witness: the concrete unrecognized value PHONE_SCREEN is rejected
with an unrecognized-enum error and never writes a row. -/
theorem createEvent_rejects_unrecognized_event_type_witness :
    createEvent badEventRow twoUserState = .error (.invalidEnum "PHONE_SCREEN") ∧
    ∀ s2, createEvent badEventRow twoUserState ≠ .ok s2 :=
  createEvent_rejects_unrecognized_event_type badEventRow twoUserState (by decide)

/-- An application whose stored status is APPLIED, last updated at time 5. -/
def timestampApp : JobApplicationRow :=
  { applicationId := 7, userId := "u1", company := "Acme", role := "Engineer",
    status := "APPLIED", createdAt := 1, lastUpdatedAt := some 5 }

/-- Store holding `timestampApp` with the clock at 10. -/
def timestampState : DBState := { applications := [timestampApp], clock := 10 }

/-- C3 counterexample: an updateApplication call whose only supplied field
equals the stored value (an empty changed-field set) still changes
last_updated_at: supabase.ts passes the payload straight to UPDATE and the
update_job_application_timestamp trigger stamps last_updated_at = now() on
every updated row, differing or not. -/
theorem updateApplication_identity_update_bumps_timestamp :
    timestampApp.status = "APPLIED" ∧
    timestampApp.lastUpdatedAt = some 5 ∧
    (updateApplication 7 "u1" { status := some "APPLIED" } timestampState).applications.map
      (fun r => r.lastUpdatedAt) = [some 10] := by
  decide

/-- C7: deleting an application by explicit user action removes every event
referencing it (the ON DELETE CASCADE on application_events), while the
emails table keeps exactly its rows: each email that pointed at the deleted
application survives with application_id cleared (the ON DELETE SET NULL on
emails) and the number of email rows is unchanged, so no received email is
lost. -/
theorem deleteApplication_cascade_and_email_preservation
    (id : Nat) (userId : String) (s : DBState) (app : JobApplicationRow)
    (happ : app ∈ s.applications) (hid : app.applicationId = id)
    (huser : app.userId = userId) :
    (∀ ev ∈ (deleteApplication id userId s).events, ev.applicationId ≠ id) ∧
    (deleteApplication id userId s).emails =
      s.emails.map (fun e =>
        if e.applicationId = some id then { e with applicationId := none } else e) ∧
    (deleteApplication id userId s).emails.length = s.emails.length := by
  have hmemRem : id ∈ (s.applications.filter (fun r =>
      decide (r.applicationId = id ∧ r.userId = userId))).map (fun r => r.applicationId) := by
    refine List.mem_map.2 ⟨app, ?_, hid⟩
    exact List.mem_filter.2 ⟨happ, decide_eq_true ⟨hid, huser⟩⟩
  have hall : ∀ a ∈ (s.applications.filter (fun r =>
      decide (r.applicationId = id ∧ r.userId = userId))).map (fun r => r.applicationId),
      a = id := by
    intro a ha
    rcases List.mem_map.1 ha with ⟨r, hr, hra⟩
    have hd := of_decide_eq_true (List.mem_filter.1 hr).2
    rw [← hra]
    exact hd.1
  have hemails : (deleteApplication id userId s).emails =
      s.emails.map (fun e =>
        if e.applicationId = some id then { e with applicationId := none } else e) := by
    simp only [deleteApplication]
    apply List.map_congr_left
    intro e _
    cases hea : e.applicationId with
    | none =>
      have hcon : ¬ (none : Option Nat) = some id := fun hcon => Option.noConfusion hcon
      simp only [hea]
      rw [if_neg hcon]
    | some a =>
      simp only [hea]
      by_cases haid : a = id
      · subst haid
        rw [if_pos hmemRem, if_pos rfl]
      · have hnotmem : a ∉ (s.applications.filter (fun r =>
            decide (r.applicationId = id ∧ r.userId = userId))).map (fun r => r.applicationId) :=
          fun hin => haid (hall a hin)
        have hcon : ¬ (some a : Option Nat) = some id :=
          fun hcon => haid (Option.some_inj.1 hcon)
        rw [if_neg hnotmem, if_neg hcon]
  refine ⟨?_, hemails, ?_⟩
  · intro ev hev
    simp only [deleteApplication] at hev
    have h2 := (List.mem_filter.1 hev).2
    rw [Bool.not_eq_true'] at h2
    have hnot := of_decide_eq_false h2
    intro heq
    rw [heq] at hnot
    exact hnot hmemRem
  · rw [hemails, List.length_map]

/-- A store with one application, one event on it and two emails, one linked
to the application. -/
def cascadeState : DBState :=
  { applications :=
      [{ applicationId := 3, userId := "u1", company := "Acme",
         role := "Engineer", status := "APPLIED" }]
    events :=
      [{ eventId := 11, applicationId := 3, userId := "u1",
         eventType := "INTERVIEW_SCHEDULED", eventDate := 40 }]
    emails :=
      [{ emailId := 21, userId := "u1", applicationId := some 3,
         externalEmailId := "m1", sender := "a@x", recipient := "b@x",
         subject := "s1", receivedAt := 30 },
       { emailId := 22, userId := "u1", applicationId := none,
         externalEmailId := "m2", sender := "a@x", recipient := "b@x",
         subject := "s2", receivedAt := 31 }] }

/-- C7 witness: deleting application 3 of user u1 removes its event, keeps
both email rows and clears the link of the email that pointed at it. -/
theorem deleteApplication_cascade_witness :
    (∀ ev ∈ (deleteApplication 3 "u1" cascadeState).events, ev.applicationId ≠ 3) ∧
    (deleteApplication 3 "u1" cascadeState).emails =
      cascadeState.emails.map (fun e =>
        if e.applicationId = some 3 then { e with applicationId := none } else e) ∧
    (deleteApplication 3 "u1" cascadeState).emails.length = cascadeState.emails.length :=
  deleteApplication_cascade_and_email_preservation 3 "u1" cascadeState
    { applicationId := 3, userId := "u1", company := "Acme",
      role := "Engineer", status := "APPLIED" }
    (by decide) rfl rfl

/-- C6: last_email_received_at on an application changes exactly on the
insertion of an email linked to it, and then takes the value of the received
timestamp of that email (the AFTER INSERT trigger); updating an email row
(including linking it afterwards or marking it parsed) never changes it, an
application update whose payload does not carry the field leaves it as it
was, deletion only removes rows, and createEvent leaves the applications
table untouched. -/
theorem last_email_received_at_tracking (e : EmailRow) (s : DBState) :
    List.Forall₂ (fun r rNew =>
        (e.applicationId = some r.applicationId →
          rNew.lastEmailReceivedAt = some e.receivedAt) ∧
        (e.applicationId ≠ some r.applicationId →
          rNew.lastEmailReceivedAt = r.lastEmailReceivedAt))
      s.applications (insertEmail e s).applications ∧
    (∀ id appId conf, (markEmailAsParsed id appId conf s).applications = s.applications) ∧
    (∀ emailId appId, (linkEmail emailId appId s).applications = s.applications) ∧
    (∀ id userId u, u.lastEmailReceivedAt = none →
      List.Forall₂ (fun r rNew => rNew.lastEmailReceivedAt = r.lastEmailReceivedAt)
        s.applications (updateApplication id userId u s).applications) ∧
    (∀ id userId, ∀ r ∈ (deleteApplication id userId s).applications, r ∈ s.applications) ∧
    (∀ ev s2, createEvent ev s = Except.ok s2 → s2.applications = s.applications) := by
  refine ⟨?_, ?_, ?_, ?_, ?_, ?_⟩
  · cases hea : e.applicationId with
    | none =>
      have hsame : (insertEmail e s).applications = s.applications := by
        simp [insertEmail, hea]
      rw [hsame]
      apply forall2_refl_of_forall
      intro r _
      refine ⟨?_, fun _ => rfl⟩
      intro hcon
      exact Option.noConfusion hcon
    | some a =>
      have hmapped : (insertEmail e s).applications = s.applications.map (fun r =>
          if r.applicationId = a then
            { r with lastEmailReceivedAt := some e.receivedAt,
                     lastUpdatedAt := some s.clock }
          else r) := by
        simp [insertEmail, hea]
      rw [hmapped]
      apply forall2_map_of_forall
      intro r _
      constructor
      · intro heq
        have ha : r.applicationId = a := (Option.some_inj.1 heq).symm
        rw [if_pos ha]
      · intro hne
        have ha : ¬ r.applicationId = a := fun hh => hne (by rw [hh])
        rw [if_neg ha]
  · intro id appId conf
    rfl
  · intro emailId appId
    rfl
  · intro id userId u hu
    unfold updateApplication
    apply forall2_map_of_forall
    intro r _
    by_cases hc : r.applicationId = id ∧ r.userId = userId
    · rw [if_pos hc]
      simp [applyUpdates, hu]
    · rw [if_neg hc]
  · intro id userId r hr
    simp only [deleteApplication] at hr
    exact (List.mem_filter.1 hr).1
  · intro ev s2 hok
    unfold createEvent at hok
    by_cases h1 : ev.eventType ∉ applicationEventTypeValues
    · rw [if_pos h1] at hok
      exact Except.noConfusion hok
    · rw [if_neg h1] at hok
      by_cases h2 : ∀ a ∈ s.applications, a.applicationId ≠ ev.applicationId
      · rw [if_pos h2] at hok
        exact Except.noConfusion hok
      · rw [if_neg h2] at hok
        have h3 := Except.ok.inj hok
        rw [← h3]

/-- An email insert linked to application 3 at received time 77. -/
def linkedInsertEmail : EmailRow :=
  { emailId := 23, userId := "u1", applicationId := some 3,
    externalEmailId := "m3", sender := "a@x", recipient := "b@x",
    subject := "s3", receivedAt := 77 }

/-- C6 witness: inserting an email linked to application 3 sets its
last_email_received_at to 77, and the unrelated operations leave the
field of every application unchanged. -/
theorem last_email_received_at_tracking_witness :
    List.Forall₂ (fun r rNew =>
        (linkedInsertEmail.applicationId = some r.applicationId →
          rNew.lastEmailReceivedAt = some linkedInsertEmail.receivedAt) ∧
        (linkedInsertEmail.applicationId ≠ some r.applicationId →
          rNew.lastEmailReceivedAt = r.lastEmailReceivedAt))
      cascadeState.applications (insertEmail linkedInsertEmail cascadeState).applications ∧
    (∀ id appId conf,
      (markEmailAsParsed id appId conf cascadeState).applications =
        cascadeState.applications) ∧
    (∀ emailId appId,
      (linkEmail emailId appId cascadeState).applications = cascadeState.applications) ∧
    (∀ id userId u, u.lastEmailReceivedAt = none →
      List.Forall₂ (fun r rNew => rNew.lastEmailReceivedAt = r.lastEmailReceivedAt)
        cascadeState.applications (updateApplication id userId u cascadeState).applications) ∧
    (∀ id userId, ∀ r ∈ (deleteApplication id userId cascadeState).applications,
      r ∈ cascadeState.applications) ∧
    (∀ ev s2, createEvent ev cascadeState = Except.ok s2 →
      s2.applications = cascadeState.applications) :=
  last_email_received_at_tracking linkedInsertEmail cascadeState

/-- C3 as amended: in the event-processing update path
(updateApplicationFromEvent), an update whose changed-field set is empty
issues no UPDATE, so the store (and in particular last_updated_at) is
untouched; and in every case only the four parsed-supplied fields plus the
two workflow timestamps are rewritten: company, role, owner, created_at,
applied_date, job_posting_url survive, fields parsed leaves null survive,
and applications other than the matched one are untouched. The direct
updateApplication path in supabase.ts is exempt from the claim (see the
counterexample). -/
theorem updateApplicationFromEvent_no_churn_and_frame
    (appId : Nat) (p : ParsedEmail) (t : Nat) (s : DBState) :
    ((updateApplicationFromEvent appId p t s).1 = [] →
      (updateApplicationFromEvent appId p t s).2 = s) ∧
    List.Forall₂ (fun q qNew =>
        qNew.company = q.company ∧ qNew.role = q.role ∧ qNew.userId = q.userId ∧
        qNew.createdAt = q.createdAt ∧ qNew.appliedDate = q.appliedDate ∧
        qNew.jobPostingUrl = q.jobPostingUrl ∧
        (p.status = none → qNew.status = q.status) ∧
        (p.location = none → qNew.location = q.location) ∧
        (p.salaryRange = none → qNew.salaryRange = q.salaryRange) ∧
        (p.notes = none → qNew.notes = q.notes) ∧
        (q.applicationId ≠ appId → qNew = q))
      s.applications (updateApplicationFromEvent appId p t s).2.applications := by
  cases hf : s.applications.find? (fun r => decide (r.applicationId = appId)) with
  | none =>
    have heq : updateApplicationFromEvent appId p t s = ([], s) := by
      simp only [updateApplicationFromEvent, hf]
    rw [heq]
    refine ⟨fun _ => rfl, ?_⟩
    apply forall2_refl_of_forall
    intro q _
    exact ⟨rfl, rfl, rfl, rfl, rfl, rfl, fun _ => rfl, fun _ => rfl, fun _ => rfl,
      fun _ => rfl, fun _ => rfl⟩
  | some r =>
    by_cases hcs : changedFields p r = []
    · have heq : updateApplicationFromEvent appId p t s = ([], s) := by
        simp only [updateApplicationFromEvent, hf]
        rw [if_pos hcs]
      rw [heq]
      refine ⟨fun _ => rfl, ?_⟩
      apply forall2_refl_of_forall
      intro q _
      exact ⟨rfl, rfl, rfl, rfl, rfl, rfl, fun _ => rfl, fun _ => rfl, fun _ => rfl,
        fun _ => rfl, fun _ => rfl⟩
    · have heq : updateApplicationFromEvent appId p t s =
          (changedFields p r, { s with applications := s.applications.map (fun q =>
            if q.applicationId = appId then
              { applyParsedFields p q with
                lastUpdatedAt := some s.clock,
                lastEmailReceivedAt := some t }
            else q) }) := by
        simp only [updateApplicationFromEvent, hf]
        rw [if_neg hcs]
      rw [heq]
      refine ⟨fun hemp => absurd hemp hcs, ?_⟩
      apply forall2_map_of_forall
      intro q _
      by_cases hqa : q.applicationId = appId
      · rw [if_pos hqa]
        refine ⟨rfl, rfl, rfl, rfl, rfl, rfl, ?_, ?_, ?_, ?_, ?_⟩
        · intro hst
          simp [applyParsedFields, hst]
        · intro hloc
          simp [applyParsedFields, hloc]
        · intro hsal
          simp [applyParsedFields, hsal]
        · intro hnt
          simp [applyParsedFields, hnt]
        · intro hne
          exact absurd hqa hne
      · rw [if_neg hqa]
        exact ⟨rfl, rfl, rfl, rfl, rfl, rfl, fun _ => rfl, fun _ => rfl, fun _ => rfl,
          fun _ => rfl, fun _ => rfl⟩

/-- A parsed extraction whose only supplied updatable field equals the value
already stored on `timestampApp`. -/
def noChangeParsed : ParsedEmail :=
  { intent := .applicationEvent, status := some "APPLIED" }

/-- C3 witness: on `timestampState` the changed-field set of
`noChangeParsed` against application 7 is empty, the update issues no write
at all, and the frame conditions hold. -/
theorem updateApplicationFromEvent_no_churn_witness :
    (updateApplicationFromEvent 7 noChangeParsed 99 timestampState).2 = timestampState ∧
    List.Forall₂ (fun q qNew =>
        qNew.company = q.company ∧ qNew.role = q.role ∧ qNew.userId = q.userId ∧
        qNew.createdAt = q.createdAt ∧ qNew.appliedDate = q.appliedDate ∧
        qNew.jobPostingUrl = q.jobPostingUrl ∧
        (noChangeParsed.status = none → qNew.status = q.status) ∧
        (noChangeParsed.location = none → qNew.location = q.location) ∧
        (noChangeParsed.salaryRange = none → qNew.salaryRange = q.salaryRange) ∧
        (noChangeParsed.notes = none → qNew.notes = q.notes) ∧
        (q.applicationId ≠ 7 → qNew = q))
      timestampState.applications
      (updateApplicationFromEvent 7 noChangeParsed 99 timestampState).2.applications :=
  ⟨(updateApplicationFromEvent_no_churn_and_frame 7 noChangeParsed 99 timestampState).1
      (by decide),
   (updateApplicationFromEvent_no_churn_and_frame 7 noChangeParsed 99 timestampState).2⟩

/-- C5: findMatch resolves in strict priority order with the first hit
winning. When some application of the user is identified by
parsed.application_id, the result is such an application; when none is but
an exact case-sensitive (company, role) match exists among the applications
of the user, the result is such a match; when neither holds but a
case-insensitive trimmed-lowercased match exists, the result is such a
match; and when no strategy applies the result is null. -/
theorem findMatch_priority (userId : String) (p : ParsedEmail) (s : DBState) :
    ((∃ r ∈ s.applications, matchesParsedId userId p r) →
      ∃ r, findMatch userId p s = some r ∧ r ∈ s.applications ∧
        matchesParsedId userId p r) ∧
    ((∀ r ∈ s.applications, ¬ matchesParsedId userId p r) →
     (∃ r ∈ s.applications, exactMatch userId p r) →
      ∃ r, findMatch userId p s = some r ∧ r ∈ s.applications ∧
        exactMatch userId p r) ∧
    ((∀ r ∈ s.applications, ¬ matchesParsedId userId p r) →
     (∀ r ∈ s.applications, ¬ exactMatch userId p r) →
     (∃ r ∈ s.applications, ciMatch userId p r) →
      ∃ r, findMatch userId p s = some r ∧ r ∈ s.applications ∧
        ciMatch userId p r) ∧
    ((∀ r ∈ s.applications, ¬ matchesParsedId userId p r) →
     (∀ r ∈ s.applications, ¬ exactMatch userId p r) →
     (∀ r ∈ s.applications, ¬ ciMatch userId p r) →
      findMatch userId p s = none) := by
  have hbNone : (∀ r ∈ s.applications, ¬ matchesParsedId userId p r) →
      findByParsedId userId p s = none := by
    intro hno
    unfold findByParsedId
    cases hpid : p.applicationId with
    | none => rfl
    | some aid =>
      rw [List.find?_eq_none]
      intro r hr hcon
      have hprops := of_decide_eq_true hcon
      refine hno r hr ⟨?_, hprops.2⟩
      rw [hpid, hprops.1]
  have heNone : (∀ r ∈ s.applications, ¬ exactMatch userId p r) →
      findExact userId p s = none := by
    intro hno
    unfold findExact
    rw [List.find?_eq_none]
    intro r hr hcon
    exact hno r hr (of_decide_eq_true hcon)
  refine ⟨?_, ?_, ?_, ?_⟩
  · rintro ⟨r0, hr0, hpid0, hu⟩
    cases hfind : s.applications.find? (fun r =>
        decide (r.applicationId = r0.applicationId ∧ r.userId = userId)) with
    | none =>
      exfalso
      rw [List.find?_eq_none] at hfind
      exact hfind r0 hr0 (decide_eq_true ⟨rfl, hu⟩)
    | some r =>
      have hb : findByParsedId userId p s = some r := by
        simp only [findByParsedId, hpid0]
        exact hfind
      have hmem := List.mem_of_find?_eq_some hfind
      have hp := List.find?_some hfind
      have hprops := of_decide_eq_true hp
      refine ⟨r, ?_, hmem, ?_, hprops.2⟩
      · simp only [findMatch, hb]
      · rw [hpid0, hprops.1]
  · rintro hno ⟨r0, hr0, he0⟩
    have hb := hbNone hno
    cases hfind : s.applications.find? (fun r => decide (exactMatch userId p r)) with
    | none =>
      exfalso
      rw [List.find?_eq_none] at hfind
      exact hfind r0 hr0 (decide_eq_true he0)
    | some r =>
      have hfx : findExact userId p s = some r := hfind
      have hmem := List.mem_of_find?_eq_some hfind
      have hp := List.find?_some hfind
      have hprops := of_decide_eq_true hp
      refine ⟨r, ?_, hmem, hprops⟩
      simp only [findMatch, hb, hfx]
  · rintro hno hnoe ⟨r0, hr0, hc0⟩
    have hb := hbNone hno
    have hfe := heNone hnoe
    cases hfind : s.applications.find? (fun r => decide (ciMatch userId p r)) with
    | none =>
      exfalso
      rw [List.find?_eq_none] at hfind
      exact hfind r0 hr0 (decide_eq_true hc0)
    | some r =>
      have hfc : findCaseInsensitive userId p s = some r := hfind
      have hmem := List.mem_of_find?_eq_some hfind
      have hp := List.find?_some hfind
      have hprops := of_decide_eq_true hp
      refine ⟨r, ?_, hmem, hprops⟩
      simp only [findMatch, hb, hfe, hfc]
  · intro hno hnoe hnoc
    have hb := hbNone hno
    have hfe := heNone hnoe
    have hfc : findCaseInsensitive userId p s = none := by
      unfold findCaseInsensitive
      rw [List.find?_eq_none]
      intro r hr hcon
      exact hnoc r hr (of_decide_eq_true hcon)
    simp only [findMatch, hb, hfe, hfc]

/-- A store whose single application of user u1 is at Acme Inc. -/
def acmeState : DBState :=
  { applications :=
      [{ applicationId := 5, userId := "u1", company := "Acme Inc",
         role := "Engineer", status := "APPLIED" }] }

/-- A parsed extraction naming the company and role in different case. -/
def acmeParsed : ParsedEmail :=
  { intent := .applicationEvent, company := some "acme inc",
    role := some "engineer" }

/-- C5 witness: with no parsed application id and no exact match, the
case-insensitive strategy matches company Acme Inc against parsed
acme inc. -/
theorem findMatch_priority_witness :
    ∃ r, findMatch "u1" acmeParsed acmeState = some r ∧
      r ∈ acmeState.applications ∧ ciMatch "u1" acmeParsed r :=
  (findMatch_priority "u1" acmeParsed acmeState).2.2.1
    (by decide) (by decide) (by decide)

/-- Number of email rows carrying a given dedup key
(user_id, external_email_id). -/
def dedupKeyCount (userId xid : String) (s : DBState) : Nat :=
  s.emails.countP (fun e => decide (e.userId = userId ∧ e.externalEmailId = xid))

/-- A countP is unchanged by a map that preserves the predicate. -/
theorem countP_map_eq_of_pres {α : Type} (p : α → Bool) (f : α → α) :
    ∀ l : List α, (∀ a ∈ l, p (f a) = p a) → (l.map f).countP p = l.countP p
  | [], _ => rfl
  | a :: t, h => by
    simp only [List.map_cons, List.countP_cons]
    rw [countP_map_eq_of_pres p f t (fun b hb => h b (List.mem_cons_of_mem a hb)),
        h a (List.mem_cons_self a t)]

/-- Linking an email rewrites only its application_id, never its dedup key. -/
theorem dedupKeyCount_linkEmail (u x : String) (i a : Nat) (s : DBState) :
    dedupKeyCount u x (linkEmail i a s) = dedupKeyCount u x s := by
  unfold dedupKeyCount linkEmail
  apply countP_map_eq_of_pres
  intro e _
  by_cases he : e.emailId = i
  · rw [if_pos he]
  · rw [if_neg he]

/-- Updating parse metadata never changes the dedup key of a row. -/
theorem dedupKeyCount_setParsedMeta (u x : String) (i : Nat) (conf : Option Nat)
    (s : DBState) :
    dedupKeyCount u x (setParsedMeta i conf s) = dedupKeyCount u x s := by
  unfold dedupKeyCount setParsedMeta
  apply countP_map_eq_of_pres
  intro e _
  by_cases he : e.emailId = i
  · rw [if_pos he]
  · rw [if_neg he]

/-- Inserting an email that carries the dedup key raises its count by one. -/
theorem dedupKeyCount_insertEmail_hit (u x : String) (e : EmailRow) (s : DBState)
    (h1 : e.userId = u) (h2 : e.externalEmailId = x) :
    dedupKeyCount u x (insertEmail e s) = dedupKeyCount u x s + 1 := by
  have hemails : (insertEmail e s).emails = s.emails ++ [e] := by
    unfold insertEmail
    cases e.applicationId <;> rfl
  unfold dedupKeyCount
  rw [hemails, List.countP_append]
  simp [List.countP_cons, h1, h2]

/-- A successful backend create touches only applications and the id
counter. -/
theorem createApplicationFromParsed_ok_emails (u : String) (p : ParsedEmail)
    (t : Nat) (s : DBState) (i : Nat) (s2 : DBState)
    (h : createApplicationFromParsed u p t s = .ok (i, s2)) : s2.emails = s.emails := by
  unfold createApplicationFromParsed at h
  cases hc : p.company with
  | none =>
    rw [hc] at h
    exact Except.noConfusion h
  | some c =>
    cases hr : p.role with
    | none =>
      rw [hc, hr] at h
      exact Except.noConfusion h
    | some r =>
      simp only [hc, hr] at h
      by_cases hce : c = ""
      · rw [if_pos hce] at h
        exact Except.noConfusion h
      · rw [if_neg hce] at h
        by_cases hre : r = ""
        · rw [if_pos hre] at h
          exact Except.noConfusion h
        · rw [if_neg hre] at h
          injection h with h2
          injection h2 with h4 h5
          rw [← h5]

/-- A successful createEvent touches only the events table. -/
theorem createEvent_ok_emails (ev : ApplicationEventRow) (s s2 : DBState)
    (h : createEvent ev s = .ok s2) : s2.emails = s.emails := by
  unfold createEvent at h
  by_cases h1 : ev.eventType ∉ applicationEventTypeValues
  · rw [if_pos h1] at h
    exact Except.noConfusion h
  · rw [if_neg h1] at h
    by_cases h2 : ∀ a ∈ s.applications, a.applicationId ≠ ev.applicationId
    · rw [if_pos h2] at h
      exact Except.noConfusion h
    · rw [if_neg h2] at h
      have h3 := Except.ok.inj h
      rw [← h3]

/-- The selective field update touches only the applications table. -/
theorem updateApplicationFromEvent_emails (appId : Nat) (p : ParsedEmail)
    (t : Nat) (s : DBState) :
    ((updateApplicationFromEvent appId p t s).2).emails = s.emails := by
  cases hf : s.applications.find? (fun r => decide (r.applicationId = appId)) with
  | none => simp only [updateApplicationFromEvent, hf]
  | some r =>
    simp only [updateApplicationFromEvent, hf]
    by_cases hcs : changedFields p r = []
    · rw [if_pos hcs]
    · rw [if_neg hcs]

/-- The event branch never changes any dedup-key count. -/
theorem dedupKeyCount_handleEventIntent (u x userId : String) (p : ParsedEmail)
    (emailId : Nat) (raw : RawEmail) (s : DBState) :
    dedupKeyCount u x (handleEventIntent userId p emailId raw s).1 =
      dedupKeyCount u x s := by
  cases hm : findMatch userId p s with
  | none =>
    unfold handleEventIntent
    simp only [hm]
  | some app =>
    cases hce : createEvent (eventRowFromParsed userId p emailId raw app s)
        { s with nextId := s.nextId + 1 } with
    | error err =>
      unfold handleEventIntent
      simp only [hm, hce]
    | ok s2 =>
      unfold handleEventIntent
      simp only [hm, hce]
      rw [dedupKeyCount_linkEmail]
      have hupd := updateApplicationFromEvent_emails app.applicationId p raw.receivedAt s2
      have hcrt := createEvent_ok_emails _ _ _ hce
      unfold dedupKeyCount
      rw [hupd, hcrt]

/-- The whole intent branch never changes any dedup-key count. -/
theorem dedupKeyCount_handleIntent (u x userId : String) (p : ParsedEmail)
    (emailId : Nat) (raw : RawEmail) (s : DBState) :
    dedupKeyCount u x (handleIntent userId p emailId raw s).1 =
      dedupKeyCount u x s := by
  unfold handleIntent
  cases hi : p.intent with
  | general => rfl
  | newApplication =>
    cases hc : createApplicationFromParsed userId p raw.receivedAt s with
    | error err => rfl
    | ok pr =>
      obtain ⟨appId, s2⟩ := pr
      rw [dedupKeyCount_linkEmail]
      have he := createApplicationFromParsed_ok_emails _ _ _ _ _ _ hc
      unfold dedupKeyCount
      rw [he]
  | applicationEvent => exact dedupKeyCount_handleEventIntent u x userId p emailId raw s

/-- A run whose dedup gate fires returns immediately: same store, duplicate
outcome, classifier never called. -/
theorem processEmail_duplicate (classify : RawEmail → ParsedEmail)
    (userId : String) (raw : RawEmail) (s : DBState)
    (h : isDuplicate userId raw.externalEmailId s = true) :
    processEmail classify userId raw s = ⟨s, .duplicate, false⟩ := by
  unfold processEmail
  rw [if_pos h]

/-- C2: processEmail is idempotent on the dedup key. Starting from a store
with no email for (user_id, external_email_id), the first call leaves
exactly one Email row with that key, and the second call with the same pair
returns the duplicate outcome with the store unchanged and without invoking
the classifier, so it performs no second Application or Event side
effect. -/
theorem processEmail_idempotent_on_dedup_key (classify : RawEmail → ParsedEmail)
    (userId : String) (raw : RawEmail) (s : DBState)
    (h : ∀ e ∈ s.emails, ¬ (e.userId = userId ∧ e.externalEmailId = raw.externalEmailId)) :
    dedupKeyCount userId raw.externalEmailId (processEmail classify userId raw s).state = 1 ∧
    processEmail classify userId raw (processEmail classify userId raw s).state =
      ⟨(processEmail classify userId raw s).state, .duplicate, false⟩ := by
  have hgate : isDuplicate userId raw.externalEmailId s = false := by
    unfold isDuplicate
    rw [List.any_eq_false]
    intro e he hcon
    exact h e he (of_decide_eq_true hcon)
  have hzero : dedupKeyCount userId raw.externalEmailId s = 0 := by
    unfold dedupKeyCount
    rw [List.countP_eq_zero]
    intro e he hcon
    exact h e he (of_decide_eq_true hcon)
  have hrun : processEmail classify userId raw s =
      ⟨setParsedMeta s.nextId (classify raw).confidenceScore
        (handleIntent userId (classify raw) s.nextId raw
          (insertEmail (emailRowOf userId raw s) { s with nextId := s.nextId + 1 })).1,
       (handleIntent userId (classify raw) s.nextId raw
          (insertEmail (emailRowOf userId raw s) { s with nextId := s.nextId + 1 })).2,
       true⟩ := by
    unfold processEmail
    rw [if_neg (by simp [hgate])]
  have hcount : dedupKeyCount userId raw.externalEmailId
      (processEmail classify userId raw s).state = 1 := by
    rw [hrun]
    show dedupKeyCount userId raw.externalEmailId
      (setParsedMeta s.nextId (classify raw).confidenceScore
        (handleIntent userId (classify raw) s.nextId raw
          (insertEmail (emailRowOf userId raw s) { s with nextId := s.nextId + 1 })).1) = 1
    rw [dedupKeyCount_setParsedMeta, dedupKeyCount_handleIntent,
        dedupKeyCount_insertEmail_hit userId raw.externalEmailId (emailRowOf userId raw s)
          { s with nextId := s.nextId + 1 } rfl rfl]
    have hz2 : dedupKeyCount userId raw.externalEmailId
        { s with nextId := s.nextId + 1 } = 0 := hzero
    rw [hz2]
  have hgate2 : isDuplicate userId raw.externalEmailId
      (processEmail classify userId raw s).state = true := by
    have hpos : 0 < ((processEmail classify userId raw s).state).emails.countP
        (fun e => decide (e.userId = userId ∧ e.externalEmailId = raw.externalEmailId)) := by
      have : dedupKeyCount userId raw.externalEmailId
          (processEmail classify userId raw s).state = 1 := hcount
      unfold dedupKeyCount at this
      rw [this]
      exact Nat.one_pos
    rcases List.countP_pos_iff.1 hpos with ⟨e, he, hpe⟩
    unfold isDuplicate
    rw [List.any_eq_true]
    exact ⟨e, he, hpe⟩
  exact ⟨hcount, processEmail_duplicate classify userId raw _ hgate2⟩

/-- A classifier that always reports a general email. -/
def generalClassifier : RawEmail → ParsedEmail :=
  fun _ => { intent := .general }

/-- A concrete inbound email with external id abc. -/
def rawAbc : RawEmail :=
  { externalEmailId := "abc", sender := "hr@acme.example",
    recipient := "me@example.com", subject := "hello", receivedAt := 100 }

/-- C2 witness: processing rawAbc twice from the empty store stores exactly
one row with the key (u1, abc) and the second call is a pure duplicate
return that skips the classifier. -/
theorem processEmail_idempotent_witness :
    dedupKeyCount "u1" "abc" (processEmail generalClassifier "u1" rawAbc {}).state = 1 ∧
    processEmail generalClassifier "u1" rawAbc
        (processEmail generalClassifier "u1" rawAbc {}).state =
      ⟨(processEmail generalClassifier "u1" rawAbc {}).state, .duplicate, false⟩ := by
  have hcore := processEmail_idempotent_on_dedup_key generalClassifier "u1" rawAbc {}
    (by intro e he hcon; cases he)
  exact ⟨hcore.1, hcore.2⟩

end JobHub
